import Mathlib

/-!
# OpenAdapt `qsysinfo.c` and `vwin.c`: a verification development

A shallow embedding of the two inventory programs under `openadapt/external`:

* `qsysinfo.c`: fetch the system process table (size probe, then fill), walk the
  chain of `SYSTEM_PROCESS_INFORMATION` records, order the collected pointers with
  `qsort` and `compareProcessCreationTime`, and print one block per process;
* `vwin.c`: walk the top-level window chain, record the visible titled windows
  whose owning process can be queried, order them and print one row per window.

Conventions of the embedding.

* A pointer into the snapshot buffer is the byte offset from `processInfo`, a `Nat`.
  `Memory` gives the record obtained by dereferencing such a pointer. The C code
  never compares a pointer with the end of the buffer, so `Memory` is total: it
  also says what lies behind the buffer.
* Calls into Windows are fields of the structures `Kernel`, `ProcessApi` and
  `WindowApi`; the answers of one run are the values of these fields.
* `qsort` belongs to the C library. It is a parameter of the ordering step, with
  the C standard's contract `QsortContract` as the only thing known about it.
* Loops that the C code does not bound (`while (current->NextEntryOffset != 0)`)
  take a fuel argument and report whether they ended.
-/

namespace OpenAdapt

/-! ## Data model of `qsysinfo.c` -/

/-- The fields of `SYSTEM_PROCESS_INFORMATION` (winternl.h) that `qsysinfo.c` reads.
`NextEntryOffset` is a `ULONG`, `CreateTime.QuadPart` a signed 64-bit `LONGLONG`,
`ImageName.Buffer` is `none` for a NULL pointer. -/
structure SYSTEM_PROCESS_INFORMATION where
  NextEntryOffset : Nat
  CreateTime : Int
  UniqueProcessId : Nat
  InheritedFromUniqueProcessId : Nat
  PrivatePageCount : Nat
  ImageName : Option (List Nat)
  deriving DecidableEq

/-- What dereferencing a `PSYSTEM_PROCESS_INFORMATION` yields; the pointer is the
byte offset from the start of the snapshot buffer. -/
abbrev Memory := Nat → SYSTEM_PROCESS_INFORMATION

/-- The value `STATUS_SUCCESS` of qsysinfo.h, as a 32-bit pattern. -/
def STATUS_SUCCESS : Nat := 0x00000000

/-- The value `STATUS_INFO_LENGTH_MISMATCH` of qsysinfo.h, as a 32-bit pattern. -/
def STATUS_INFO_LENGTH_MISMATCH : Nat := 0xC0000004

/-- The comparator of qsysinfo.c, lines 3-14. `a` and `b` are the two array
elements (pointers to records); the comparator dereferences them and compares
`CreateTime.QuadPart`. -/
def compareProcessCreationTime (mem : Memory) (a b : Nat) : Int :=
  let p1 := mem a
  let p2 := mem b
  if p1.CreateTime < p2.CreateTime then
    -1
  else if p1.CreateTime > p2.CreateTime then
    1
  else
    0

/-! ## The record walk (qsysinfo.c, lines 52-58) -/

/-- Outcome of the record walk: the pointers stored in `processArray` (so
`i = processArray.length`), the cursors that were dereferenced, in order, and
whether the loop condition became false before the fuel ran out. -/
structure WalkTrace where
  processArray : List Nat
  reads : List Nat
  done : Bool
  deriving DecidableEq

/-- The loop `while (current->NextEntryOffset != 0) { processArray[i++] = current;
current = (PUCHAR)current + current->NextEntryOffset; }` started at `current`.
Each round dereferences `current` once. -/
def recordWalk (mem : Memory) : Nat → Nat → WalkTrace
  | 0, _ => ⟨[], [], false⟩
  | fuel + 1, current =>
    if (mem current).NextEntryOffset ≠ 0 then
      let rest := recordWalk mem fuel (current + (mem current).NextEntryOffset)
      ⟨current :: rest.processArray, current :: rest.reads, rest.done⟩
    else
      ⟨[], [current], true⟩

/-- The cursors `ps` are a record chain starting at `c`: the first record is at `c`,
every record but the last has a non-zero `NextEntryOffset` leading to the next one,
and the last record has `NextEntryOffset = 0`. -/
def isChain (mem : Memory) : Nat → List Nat → Bool
  | _, [] => false
  | c, [p] => p == c && (mem p).NextEntryOffset == 0
  | c, p :: q :: rest =>
    p == c && (mem p).NextEntryOffset != 0 &&
      isChain mem (c + (mem p).NextEntryOffset) (q :: rest)

/-! ## The buffer fetch (qsysinfo.c, lines 17-50) -/

/-- The answers of the kernel and of the allocator during one run of qsysinfo.c.
`NtQuerySystemInformation k len` is the `k`-th call (counted from 0) with
`SystemInformationLength = len`; it answers the status and the value the kernel
has for `ReturnLength`. `malloc k size` says whether the `k`-th allocation
succeeds. `memory` is what the buffer (and the address space behind it) holds
once the fill call has returned. -/
structure Kernel where
  NtQuerySystemInformation : Nat → Nat → Nat × Nat
  malloc : Nat → Nat → Bool
  memory : Memory

/-- Outcome of the fetch: either main returns with an exit code, or the buffer of
`bufferSize` bytes is filled. `queries` counts the calls of
`NtQuerySystemInformation`, `diagnostic` is the `printf` argument of a failed
query (`none` for "Failed to allocate memory"). -/
inductive FetchResult
  | exit (code : Nat) (diagnostic : Option Nat) (queries : Nat)
  | filled (bufferSize : Nat) (queries : Nat)
  deriving DecidableEq

/-- Number of bytes of a `PSYSTEM_PROCESS_INFORMATION`. -/
def sizeofPointer : Nat := 8

/-- Number of bytes of the `ULONG NextEntryOffset`, the first field of a record and
the one the record walk reads. -/
def sizeofULONG : Nat := 4

/-- Lines 17-50 of qsysinfo.c: the size probe with a NULL buffer of length 0, the
allocation of `bufferSize` bytes, the fill call, and the allocation of
`processArray`. -/
def fetch (k : Kernel) : FetchResult :=
  let probe := k.NtQuerySystemInformation 0 0
  let bufferSize := probe.2
  if probe.1 ≠ STATUS_INFO_LENGTH_MISMATCH then
    .exit 1 (some probe.1) 1
  else if !k.malloc 0 bufferSize then
    .exit 1 none 1
  else
    let status := (k.NtQuerySystemInformation 1 bufferSize).1
    if status ≠ STATUS_SUCCESS then
      .exit 1 (some status) 2
    else if !k.malloc 1 (sizeofPointer * bufferSize) then
      .exit 1 none 2
    else
      .filled bufferSize 2

/-! ## The ordering step (qsysinfo.c, lines 60-62) -/

/-- What the C standard requires of a comparison function handed to `qsort`: its
answers are consistent with one another and define a total ordering. -/
def ConsistentComparator {α : Type} (cmp : α → α → Int) : Prop :=
  (∀ a b, cmp a b < 0 ↔ 0 < cmp b a) ∧
    (∀ a b c, cmp a b ≤ 0 → cmp b c ≤ 0 → cmp a c ≤ 0)

/-- What the C standard promises of `qsort` for a consistent comparator: the array
holds the same elements afterwards, in ascending order according to the comparator.
The order of elements that compare equal is unspecified. -/
def QsortContract {α : Type} (qsort : (α → α → Int) → List α → List α) : Prop :=
  ∀ cmp, ConsistentComparator cmp → ∀ l,
    (qsort cmp l).Perm l ∧ (qsort cmp l).Pairwise (fun a b => cmp a b ≤ 0)

/-- Line 61-62: `qsort(processArray, i, sizeof(PSYSTEM_PROCESS_INFORMATION),
compareProcessCreationTime)`. -/
def orderStep (qsort : (Nat → Nat → Int) → List Nat → List Nat) (mem : Memory)
    (processArray : List Nat) : List Nat :=
  qsort (compareProcessCreationTime mem) processArray

/-- A `qsort` that keeps elements comparing equal in their input order (an
insertion sort). -/
def qsortStable {α : Type} (cmp : α → α → Int) (l : List α) : List α :=
  l.insertionSort (fun a b => cmp a b ≤ 0)

/-- A `qsort` that leaves elements comparing equal in the reverse of their input
order (an insertion sort of the reversed array). -/
def qsortTiesReversed {α : Type} (cmp : α → α → Int) (l : List α) : List α :=
  l.reverse.insertionSort (fun a b => cmp a b ≤ 0)

/-! ## The reporter loop (qsysinfo.c, lines 64-109) -/

/-- The Win32 `SYSTEMTIME` structure. -/
structure SYSTEMTIME where
  wYear : Nat
  wMonth : Nat
  wDayOfWeek : Nat
  wDay : Nat
  wHour : Nat
  wMinute : Nat
  wSecond : Nat
  wMilliseconds : Nat
  deriving DecidableEq

/-- The answers of the process and time functions of Win32 during one run.
`OpenProcess j pid` is the call made in round `j` of the loop (`none` is a NULL
handle), so that the answer may differ from round to round; `GetProcessTimes h`
gives the creation `FILETIME` (a 64-bit count) or fails; `FileTimeToSystemTime`
may fail; `SystemTimeToTzSpecificLocalTime` has the time zone built in;
`StrFormatByteSizeW` gives the formatted size or NULL; `SystemTimeToFileTime` is
used by the comparator of vwin.c. -/
structure ProcessApi where
  OpenProcess : Nat → Nat → Option Nat
  GetProcessTimes : Nat → Option Nat
  FileTimeToSystemTime : Nat → Option SYSTEMTIME
  SystemTimeToTzSpecificLocalTime : SYSTEMTIME → SYSTEMTIME
  StrFormatByteSizeW : Nat → Option (List Nat)
  SystemTimeToFileTime : SYSTEMTIME → Nat

/-- The arguments of the `printf` calls of lines 75-99, one block of the report.
`sizeString` is `none` when `StrFormatByteSizeW` returned NULL and the line
"Private memory usage" is left out. -/
structure Block where
  pid : Nat
  imageName : List Nat
  parentPid : Nat
  sizeString : Option (List Nat)
  wHour : Nat
  wMinute : Nat
  wSecond : Nat
  deriving DecidableEq

/-- State of the reporter loop: the blocks printed so far and the process handles
that are open. -/
structure ReportState where
  blocks : List Block
  openHandles : List Nat
  deriving DecidableEq

/-- `(DWORD)PtrToUlong(p)`: the low 32 bits of a pointer-sized value. -/
def PtrToUlong (p : Nat) : Nat := p % 2 ^ 32

/-- `CloseHandle(h)`: the handle is no longer open. -/
def CloseHandle (h : Nat) (openHandles : List Nat) : List Nat := openHandles.erase h

/-- One round of the loop of lines 64-104, for `current = processArray[j]`. -/
def reportOne (api : ProcessApi) (mem : Memory) (j : Nat) (current : Nat)
    (st : ReportState) : ReportState :=
  match api.OpenProcess j (PtrToUlong (mem current).UniqueProcessId) with
  | some hProcess =>
    let opened := hProcess :: st.openHandles
    let blocks :=
      match api.GetProcessTimes hProcess with
      | some creationTime =>
        match api.FileTimeToSystemTime creationTime with
        | some stCreation =>
          let sizeString := api.StrFormatByteSizeW (mem current).PrivatePageCount
          let stLocalCreation := api.SystemTimeToTzSpecificLocalTime stCreation
          st.blocks ++
            [{ pid := (mem current).UniqueProcessId
               imageName := ((mem current).ImageName).getD []
               parentPid := (mem current).InheritedFromUniqueProcessId
               sizeString := sizeString
               wHour := stLocalCreation.wHour
               wMinute := stLocalCreation.wMinute
               wSecond := stLocalCreation.wSecond }]
        | none => st.blocks
      | none => st.blocks
    { blocks := blocks, openHandles := CloseHandle hProcess opened }
  | none => st

/-- The loop `for (int j = 0; j < i; j++)` of lines 64-104, from round `j` on, over
the rest of `processArray`. -/
def reporterLoop (api : ProcessApi) (mem : Memory) : Nat → List Nat → ReportState → ReportState
  | _, [], st => st
  | j, current :: rest, st => reporterLoop api mem (j + 1) rest (reportOne api mem j current st)

/-- What a run of main of qsysinfo.c leaves: the exit code, the diagnostic of a
failed fetch, the blocks of the report, and the handles still open. -/
structure MainResult where
  exitCode : Nat
  diagnostic : Option (Option Nat)
  blocks : List Block
  openHandles : List Nat
  queries : Nat
  deriving DecidableEq

/-- Lines 64-109 of qsysinfo.c: the reporter loop over the ordered array, the
closing separator line, the two `free` calls and `return 0`. -/
def reportPhase (api : ProcessApi) (mem : Memory) (processArray : List Nat)
    (queries : Nat) : MainResult :=
  let st := reporterLoop api mem 0 processArray ⟨[], []⟩
  { exitCode := 0, diagnostic := none, blocks := st.blocks,
    openHandles := st.openHandles, queries := queries }

/-- The function main of qsysinfo.c. `none` when the record walk has not ended
within `fuel` rounds. -/
def main (k : Kernel) (api : ProcessApi)
    (qsort : (Nat → Nat → Int) → List Nat → List Nat) (fuel : Nat) : Option MainResult :=
  match fetch k with
  | .exit code diagnostic queries =>
    some { exitCode := code, diagnostic := some diagnostic, blocks := [],
           openHandles := [], queries := queries }
  | .filled _ queries =>
    let walk := recordWalk k.memory fuel 0
    if walk.done then
      some (reportPhase api k.memory (orderStep qsort k.memory walk.processArray) queries)
    else
      none

/-! ## `vwin.c` -/

/-- The structure `WindowInfo` of vwin.c, lines 5-10: `title` is the array
`char title[256]`, `startDate` the array `char startDate[20]`, each a list of
bytes. -/
structure WindowInfo where
  title : List Nat
  pid : Nat
  startTime : SYSTEMTIME
  startDate : List Nat
  deriving DecidableEq

/-- The answers of the window manager during one run of vwin.c, per window handle:
`IsWindowVisible`, the text of the window that `GetWindowText` copies from, and
the process id stored by `GetWindowThreadProcessId`. -/
structure WindowApi where
  IsWindowVisible : Nat → Bool
  windowText : Nat → List Nat
  GetWindowThreadProcessId : Nat → Nat

/-- The string held in a `char` array: the bytes before the first NUL. -/
def cstr (buf : List Nat) : List Nat := buf.takeWhile (fun c => c ≠ 0)

/-- `GetWindowText(hwnd, title, nMaxCount)`: copies at most `nMaxCount - 1`
characters of the window text and ends them with a NUL. The result is the part of
the array `title` that the call writes; the bytes behind it are indeterminate and
are never read, because every reader stops at the first NUL. -/
def GetWindowText (w : WindowApi) (hwnd : Nat) (nMaxCount : Nat) : List Nat :=
  (cstr (w.windowText hwnd)).take (nMaxCount - 1) ++ [0]

/-- `strncpy(dst, src, n)`: the characters of `src` before its first NUL, at most
`n` of them, are copied to the start of `dst`; what is left of the `n` bytes is
filled with NUL; the bytes of `dst` from index `n` on are kept. -/
def strncpy (dst src : List Nat) (n : Nat) : List Nat :=
  let copied := (cstr src).take n
  copied ++ List.replicate (n - copied.length) 0 ++ dst.drop n

/-- The conversion `%0<width>d` of a non-negative number: its decimal digits,
padded on the left with the digit 0 to `width` characters. -/
def fmtDec (width n : Nat) : List Nat :=
  let digits := (Nat.toDigits 10 n).map Char.toNat
  List.replicate (width - digits.length) 48 ++ digits

/-- `sprintf(startDate, "%04d-%02d-%02d", wYear, wMonth, wDay)`, with the
terminating NUL. -/
def sprintfDate (st : SYSTEMTIME) : List Nat :=
  fmtDec 4 st.wYear ++ [45] ++ fmtDec 2 st.wMonth ++ [45] ++ fmtDec 2 st.wDay ++ [0]

/-- Lines 40-46 of vwin.c: `WindowInfo window = {0}` and the assignments to its
four fields. -/
def makeWindowInfo (title : List Nat) (pid : Nat) (localSt : SYSTEMTIME) : WindowInfo :=
  { title := strncpy (List.replicate 256 0) title (256 - 1)
    pid := pid
    startTime := localSt
    startDate := strncpy (List.replicate 20 0) (sprintfDate localSt) (20 - 1) }

/-- State of the window walk: the used part of the array `windows` (so
`numWindows = windows.length`) and the process handles that are open. -/
structure WindowWalkState where
  windows : List WindowInfo
  openHandles : List Nat
  deriving DecidableEq

/-- Number of elements of the array `WindowInfo windows[1024]`. -/
def windowsCapacity : Nat := 1024

/-- One round of the loop of lines 27-54, for the window `hwnd` met in round `k`.
`garbage` is the indeterminate value `utcSt` keeps when `FileTimeToSystemTime`,
whose result is not looked at, fails. `none` is the undefined behaviour of the
store `windows[numWindows++] = window` with `numWindows = 1024`, behind the end of
the array. -/
def walkWindow (w : WindowApi) (api : ProcessApi) (garbage : SYSTEMTIME) (k : Nat)
    (hwnd : Nat) (st : WindowWalkState) : Option WindowWalkState :=
  let title := GetWindowText w hwnd 256
  if w.IsWindowVisible hwnd && title.head? != some 0 then
    let pid := w.GetWindowThreadProcessId hwnd
    match api.OpenProcess k pid with
    | some hProcess =>
      let opened := hProcess :: st.openHandles
      match api.GetProcessTimes hProcess with
      | some createTime =>
        let utcSt := (api.FileTimeToSystemTime createTime).getD garbage
        let localSt := api.SystemTimeToTzSpecificLocalTime utcSt
        let window := makeWindowInfo title pid localSt
        if st.windows.length < windowsCapacity then
          some { windows := st.windows ++ [window], openHandles := opened }
        else
          none
      | none => some { windows := st.windows, openHandles := CloseHandle hProcess opened }
    | none => some st
  else
    some st

/-- The loop `while (hwnd != NULL)` of lines 24-54. `chain` lists the window
handles that `GetTopWindow(NULL)` and the successive `GetNextWindow(hwnd,
GW_HWNDNEXT)` answer before NULL; `k` numbers the rounds. -/
def walkWindows (w : WindowApi) (api : ProcessApi) (garbage : SYSTEMTIME) :
    Nat → List Nat → WindowWalkState → Option WindowWalkState
  | _, [], st => some st
  | k, hwnd :: rest, st =>
    match walkWindow w api garbage k hwnd st with
    | some st1 => walkWindows w api garbage (k + 1) rest st1
    | none => none

/-- `CompareFileTime`: -1, 0 or 1 as the first 64-bit time is earlier than, equal
to or later than the second. -/
def CompareFileTime (a b : Nat) : Int :=
  if a < b then -1 else if a = b then 0 else 1

/-- The comparator of vwin.c, lines 12-19. -/
def compareStartTime (api : ProcessApi) (a b : WindowInfo) : Int :=
  let fileTimeA := api.SystemTimeToFileTime a.startTime
  let fileTimeB := api.SystemTimeToFileTime b.startTime
  CompareFileTime fileTimeA fileTimeB

/-- One row of the window report, line 58: the text that `%-40s` produces for
`window.title`, the `int` that `%-10d` receives for `window.pid`, the three
numbers of the time of day, and the text that `%20s` produces for
`window.startDate`. -/
structure Row where
  titleColumn : List Nat
  pid : Int
  wHour : Nat
  wMinute : Nat
  wSecond : Nat
  dateColumn : List Nat
  deriving DecidableEq

/-- The conversion `%-40s` (for `width = 40`): the string, then spaces up to the
minimum field width. There is no precision, so a longer string is printed whole. -/
def fmtLeft (width : Nat) (s : List Nat) : List Nat :=
  s ++ List.replicate (width - s.length) 32

/-- The conversion `%20s` (for `width = 20`): spaces up to the minimum field width,
then the string. -/
def fmtRight (width : Nat) (s : List Nat) : List Nat :=
  List.replicate (width - s.length) 32 ++ s

/-- The `DWORD` pid read as the `int` that `%d` expects. -/
def dwordAsInt (pid : Nat) : Int :=
  if pid % 2 ^ 32 < 2 ^ 31 then (pid % 2 ^ 32 : Nat) else (pid % 2 ^ 32 : Nat) - 2 ^ 32

/-- The `printf` of line 58 for one element of `windows`. -/
def renderRow (window : WindowInfo) : Row :=
  { titleColumn := fmtLeft 40 (cstr window.title)
    pid := dwordAsInt window.pid
    wHour := window.startTime.wHour
    wMinute := window.startTime.wMinute
    wSecond := window.startTime.wSecond
    dateColumn := fmtRight 20 (cstr window.startDate) }

/-- What a run of main of vwin.c leaves: the exit code, the rows printed under the
two header lines, and the handles still open. -/
structure VwinResult where
  exitCode : Nat
  rows : List Row
  openHandles : List Nat
  deriving DecidableEq

/-- The function main of vwin.c, lines 21-61. `none` is undefined behaviour (more
than 1024 windows to record). -/
def vwinMain (w : WindowApi) (api : ProcessApi) (garbage : SYSTEMTIME)
    (qsort : (WindowInfo → WindowInfo → Int) → List WindowInfo → List WindowInfo)
    (chain : List Nat) : Option VwinResult :=
  match walkWindows w api garbage 0 chain ⟨[], []⟩ with
  | some st =>
    let windows := qsort (compareStartTime api) st.windows
    some { exitCode := 0, rows := windows.map renderRow, openHandles := st.openHandles }
  | none => none

/-! ## Notions used to state the claims -/

/-- In round `j` of the reporter loop the handle of the record at `p` can be opened,
its times queried and the creation time converted. -/
def queriesSucceed (api : ProcessApi) (mem : Memory) (j p : Nat) : Bool :=
  match api.OpenProcess j (PtrToUlong (mem p).UniqueProcessId) with
  | some hProcess =>
    match api.GetProcessTimes hProcess with
    | some creationTime => (api.FileTimeToSystemTime creationTime).isSome
    | none => false
  | none => false

/-- The fields of a block that come from the process record: the id, the image
name, the parent id and the formatted private memory. -/
def blockFields (b : Block) : Nat × List Nat × Nat × Option (List Nat) :=
  (b.pid, b.imageName, b.parentPid, b.sizeString)

/-- The same fields, read off the record at `p`. -/
def recordFields (api : ProcessApi) (mem : Memory) (p : Nat) :
    Nat × List Nat × Nat × Option (List Nat) :=
  ((mem p).UniqueProcessId, ((mem p).ImageName).getD [],
    (mem p).InheritedFromUniqueProcessId, api.StrFormatByteSizeW (mem p).PrivatePageCount)

/-- The window `hwnd`, met in round `k`, is visible, has a non-empty title, and its
owning process can be opened and queried for its times. -/
def windowQualifies (w : WindowApi) (api : ProcessApi) (k hwnd : Nat) : Bool :=
  w.IsWindowVisible hwnd && (cstr (w.windowText hwnd) != []) &&
    match api.OpenProcess k (w.GetWindowThreadProcessId hwnd) with
    | some hProcess => (api.GetProcessTimes hProcess).isSome
    | none => false

/-- The windows of the chain that qualify, each with the number of its round,
rounds being counted from `k`. -/
def qualifyingWindows (w : WindowApi) (api : ProcessApi) (k : Nat) (chain : List Nat) :
    List (Nat × Nat) :=
  (chain.enumFrom k).filter (fun kh => windowQualifies w api kh.1 kh.2)

/-- The title string and the process id held in a `WindowInfo`. -/
def windowFields (window : WindowInfo) : List Nat × Nat := (cstr window.title, window.pid)

/-- The title (its first 255 characters) and the process id of the window `hwnd`,
as the window manager reports them. -/
def expectedFields (w : WindowApi) (hwnd : Nat) : List Nat × Nat :=
  ((cstr (w.windowText hwnd)).take 255, w.GetWindowThreadProcessId hwnd)

/-- The `WindowInfo` that lines 28-46 of vwin.c build for the window `hwnd`, owned
by `pid`, whose process was created at the local time `localSt`. -/
def recordedWindow (w : WindowApi) (hwnd pid : Nat) (localSt : SYSTEMTIME) : WindowInfo :=
  makeWindowInfo (GetWindowText w hwnd 256) pid localSt

/-! ## Concrete inputs -/

/-- A record with every field 0 and no image name. -/
def zeroRecord : SYSTEM_PROCESS_INFORMATION := ⟨0, 0, 0, 0, 0, none⟩

/-- The memory that holds the listed records at the listed offsets and
`zeroRecord` everywhere else. -/
def memoryOf (cells : List (Nat × SYSTEM_PROCESS_INFORMATION)) : Memory :=
  fun a => (cells.lookup a).getD zeroRecord

/-- A process record with the given offset to the next record, id and creation
time. -/
def mkRecord (next : Nat) (id : Nat) (created : Int) : SYSTEM_PROCESS_INFORMATION :=
  ⟨next, created, id, 0, 0, none⟩

/-- A buffer with the single record of process 4, whose `NextEntryOffset` is 0. -/
def oneRecordMemory : Memory := memoryOf [(0, mkRecord 0 4 10)]

/-- A buffer of 320 bytes with five records, 64 bytes apart, of the processes 1..5
created at the times 3, 1, 4, 1, 5; the last record has `NextEntryOffset = 0`. -/
def fiveRecordMemory : Memory :=
  memoryOf [(0, mkRecord 64 1 3), (64, mkRecord 64 2 1), (128, mkRecord 64 3 4),
    (192, mkRecord 64 4 1), (256, mkRecord 0 5 5)]

/-- The pointers to the five records of `fiveRecordMemory`. -/
def fiveRecordArray : List Nat := [0, 64, 128, 192, 256]

/-- A buffer declared 512 bytes long, room for two records of 256 bytes, whose first
record has the corrupt `NextEntryOffset = 1024`; at offset 1024, behind the buffer,
the memory happens to hold a record with `NextEntryOffset = 0`. -/
def corruptMemory : Memory :=
  memoryOf [(0, mkRecord 1024 1 3), (256, mkRecord 0 2 1), (1024, mkRecord 0 9 0)]

/-- The declared length of the buffer of `corruptMemory`. -/
def corruptBufferSize : Nat := 512

/-- A buffer of 768 bytes with three records of 256 bytes each, at the offsets 0,
256 and 512; the last record has `NextEntryOffset = 0`. -/
def threeRecordMemory : Memory :=
  memoryOf [(0, mkRecord 256 1 3), (256, mkRecord 256 2 1), (512, mkRecord 0 3 4)]

/-- A kernel whose size probe answers "length mismatch, 512 bytes", whose fill call
succeeds and leaves `corruptMemory`, and whose allocations succeed. -/
def corruptKernel : Kernel :=
  { NtQuerySystemInformation := fun k _ =>
      if k = 0 then (STATUS_INFO_LENGTH_MISMATCH, corruptBufferSize) else (STATUS_SUCCESS, 0)
    malloc := fun _ _ => true
    memory := corruptMemory }

/-- Answers of Win32 for a run in which no process can be opened. -/
def deniedApi : ProcessApi :=
  { OpenProcess := fun _ _ => none
    GetProcessTimes := fun _ => none
    FileTimeToSystemTime := fun _ => none
    SystemTimeToTzSpecificLocalTime := fun st => st
    StrFormatByteSizeW := fun _ => none
    SystemTimeToFileTime := fun _ => 0 }

/-- A kernel whose process table grows between the probe and the fill call: the
size probe answers "length mismatch, 64 bytes", the fill call answers "length
mismatch, 128 bytes", and every later call would succeed. -/
def growingKernel : Kernel :=
  { NtQuerySystemInformation := fun k _ =>
      if k = 0 then (STATUS_INFO_LENGTH_MISMATCH, 64)
      else if k = 1 then (STATUS_INFO_LENGTH_MISMATCH, 128)
      else (STATUS_SUCCESS, 128)
    malloc := fun _ _ => true
    memory := fiveRecordMemory }

/-- A `SYSTEMTIME` with every field 0. -/
def zeroTime : SYSTEMTIME := ⟨0, 0, 0, 0, 0, 0, 0, 0⟩

/-- Answers of Win32 for a run in which the process of round 1 cannot be opened and
every other query succeeds; the handle of round `j` is `100 + j`. -/
def secondDeniedApi : ProcessApi :=
  { OpenProcess := fun j _ => if j = 1 then none else some (100 + j)
    GetProcessTimes := fun h => some h
    FileTimeToSystemTime := fun _ => some zeroTime
    SystemTimeToTzSpecificLocalTime := fun st => st
    StrFormatByteSizeW := fun n => some [n]
    SystemTimeToFileTime := fun _ => 0 }

/-- A kernel whose probe and fill call behave as expected and leave the five
records of `fiveRecordMemory` in a buffer of 320 bytes. -/
def healthyKernel : Kernel :=
  { NtQuerySystemInformation := fun k _ =>
      if k = 0 then (STATUS_INFO_LENGTH_MISMATCH, 320) else (STATUS_SUCCESS, 320)
    malloc := fun _ _ => true
    memory := fiveRecordMemory }

/-- A desktop on which every window is visible, is titled "A" and belongs to the
process whose id is the window handle. -/
def crowdedDesktop : WindowApi :=
  { IsWindowVisible := fun _ => true
    windowText := fun _ => [65]
    GetWindowThreadProcessId := fun hwnd => hwnd }

/-- A chain of 1025 windows, with the handles 1..1025. -/
def crowdedChain : List Nat := (List.range 1025).map (fun n => n + 1)

/-- Answers of Win32 for a run in which every process can be opened and queried;
the handle of the process `pid` is `pid`. -/
def openApi : ProcessApi :=
  { OpenProcess := fun _ pid => some pid
    GetProcessTimes := fun h => some h
    FileTimeToSystemTime := fun _ => some zeroTime
    SystemTimeToTzSpecificLocalTime := fun st => st
    StrFormatByteSizeW := fun n => some [n]
    SystemTimeToFileTime := fun _ => 0 }

/-- A desktop on which every window is visible, belongs to process 7, and has a
title of 41 letters "A". -/
def longTitleDesktop : WindowApi :=
  { IsWindowVisible := fun _ => true
    windowText := fun _ => List.replicate 41 65
    GetWindowThreadProcessId := fun _ => 7 }

/-- A desktop with four visible windows: window 1 is titled "A" and belongs to
process 11, window 2 has no title, window 3 is titled "B" and belongs to process
13, window 4 is titled "C" and belongs to process 14. -/
def mixedDesktop : WindowApi :=
  { IsWindowVisible := fun _ => true
    windowText := fun hwnd =>
      if hwnd = 1 then [65] else if hwnd = 3 then [66] else if hwnd = 4 then [67] else []
    GetWindowThreadProcessId := fun hwnd => 10 + hwnd }

/-- Answers of Win32 for a run in which process 13 cannot be opened and every
other process can be opened and queried. -/
def mixedApi : ProcessApi :=
  { OpenProcess := fun _ pid => if pid = 13 then none else some pid
    GetProcessTimes := fun h => some h
    FileTimeToSystemTime := fun _ => some zeroTime
    SystemTimeToTzSpecificLocalTime := fun st => st
    StrFormatByteSizeW := fun n => some [n]
    SystemTimeToFileTime := fun _ => 0 }

/-! # Theorems -/

/-! ## The comparator -/

/-- C10: compareProcessCreationTime is a consistent three-way comparator on
CreateTime. It returns only -1, 0 or 1; it returns 0 exactly when the two creation
times are equal and -1 exactly when the first is smaller; swapping the arguments
negates the result; `compare a b ≤ 0` with `compare b c ≤ 0` gives
`compare a c ≤ 0`; and of `compare a b ≤ 0` and `compare b a ≤ 0` one always holds,
so that `compare a b ≤ 0` is a total preorder. -/
theorem compareProcessCreationTime_three_way (mem : Memory) (a b c : Nat) :
    (compareProcessCreationTime mem a b = -1 ∨ compareProcessCreationTime mem a b = 0 ∨
        compareProcessCreationTime mem a b = 1) ∧
      (compareProcessCreationTime mem a b = 0 ↔ (mem a).CreateTime = (mem b).CreateTime) ∧
      (compareProcessCreationTime mem a b = -1 ↔ (mem a).CreateTime < (mem b).CreateTime) ∧
      compareProcessCreationTime mem a b = -compareProcessCreationTime mem b a ∧
      (compareProcessCreationTime mem a b ≤ 0 → compareProcessCreationTime mem b c ≤ 0 →
        compareProcessCreationTime mem a c ≤ 0) ∧
      (compareProcessCreationTime mem a b ≤ 0 ∨ compareProcessCreationTime mem b a ≤ 0) := by
  simp only [compareProcessCreationTime]
  refine ⟨?_, ?_, ?_, ?_, ?_, ?_⟩
  · split_ifs <;> simp
  · split_ifs <;> constructor <;> intro h <;> first | omega | norm_num at h
  · split_ifs <;> constructor <;> intro h <;> first | omega | norm_num at h
  · split_ifs <;> omega
  · split_ifs <;> intros <;> omega
  · split_ifs <;> omega

/-- The comparator is non-positive exactly when the first creation time is not
later than the second. -/
theorem compareProcessCreationTime_le_zero (mem : Memory) (a b : Nat) :
    compareProcessCreationTime mem a b ≤ 0 ↔ (mem a).CreateTime ≤ (mem b).CreateTime := by
  simp only [compareProcessCreationTime]
  split_ifs <;> omega

/-- The comparator meets what the C standard asks of a `qsort` comparator. -/
theorem compareProcessCreationTime_consistent (mem : Memory) :
    ConsistentComparator (compareProcessCreationTime mem) := by
  refine ⟨fun a b => ?_, fun a b c => ?_⟩
  · simp only [compareProcessCreationTime]
    split_ifs <;> omega
  · simp only [compareProcessCreationTime_le_zero]
    exact le_trans

/-! ## The record walk -/

/-- On a record chain the walk dereferences every record of the chain, stores all
of them but the last, and ends. -/
theorem recordWalk_of_isChain (mem : Memory) :
    ∀ (ps : List Nat) (c fuel : Nat), isChain mem c ps = true → ps.length ≤ fuel →
      recordWalk mem fuel c = ⟨ps.dropLast, ps, true⟩ := by
  intro ps
  induction ps with
  | nil => intro c fuel h; simp [isChain] at h
  | cons p rest ih =>
    intro c fuel h hfuel
    cases fuel with
    | zero => simp at hfuel
    | succ fuel =>
      cases rest with
      | nil =>
        simp only [isChain, Bool.and_eq_true, beq_iff_eq] at h
        obtain ⟨rfl, h0⟩ := h
        simp [recordWalk, h0]
      | cons q rest =>
        simp only [isChain, Bool.and_eq_true, beq_iff_eq, bne_iff_ne, ne_eq] at h
        obtain ⟨⟨rfl, hne⟩, hrest⟩ := h
        have hlen : (q :: rest).length ≤ fuel := by
          simpa using hfuel
        simp [recordWalk, hne, ih _ _ hrest hlen]

/-- C1 (the code departs from the claim): on a valid chain of N records, with fuel
for N rounds, the record walk of main ends having collected only the first N - 1
records, in chain order; the last record of the chain, the one whose
NextEntryOffset is 0, is dereferenced but never stored, so the count `i` is N - 1
and not N. -/
theorem recordWalk_collects_all_but_last (mem : Memory) (ps : List Nat) (fuel : Nat)
    (hchain : isChain mem 0 ps = true) (hfuel : ps.length ≤ fuel) :
    (recordWalk mem fuel 0).done = true ∧
      (recordWalk mem fuel 0).reads = ps ∧
      (recordWalk mem fuel 0).processArray = ps.dropLast ∧
      (recordWalk mem fuel 0).processArray.length = ps.length - 1 := by
  rw [recordWalk_of_isChain mem ps 0 fuel hchain hfuel]
  simp

/-- A buffer with the single record of process 4 is a valid chain of one record,
and the walk collects no record from it. -/
theorem recordWalk_collects_all_but_last_witness :
    isChain oneRecordMemory 0 [0] = true ∧
      (recordWalk oneRecordMemory 1 0).done = true ∧
      (recordWalk oneRecordMemory 1 0).reads = [0] ∧
      (recordWalk oneRecordMemory 1 0).processArray = [].dropLast ∧
      (recordWalk oneRecordMemory 1 0).processArray.length = [0].length - 1 :=
  ⟨by decide, recordWalk_collects_all_but_last oneRecordMemory [0] 1 (by decide) (by decide)⟩

/-- A record chain whose records of `recordSize` bytes all lie inside the buffer has
at most as many records as the buffer has bytes behind the start of the chain. -/
theorem isChain_length_le (mem : Memory) (recordSize bufferSize : Nat)
    (hsize : 0 < recordSize) :
    ∀ (ps : List Nat) (c : Nat), isChain mem c ps = true →
      (∀ p ∈ ps, p + recordSize ≤ bufferSize) → ps.length + c ≤ bufferSize := by
  intro ps
  induction ps with
  | nil => intro c h; simp [isChain] at h
  | cons p rest ih =>
    intro c h hinside
    cases rest with
    | nil =>
      simp only [isChain, Bool.and_eq_true, beq_iff_eq] at h
      have hp := hinside p (by simp)
      simp only [List.length_cons, List.length_nil]
      omega
    | cons q rest =>
      simp only [isChain, Bool.and_eq_true, beq_iff_eq, bne_iff_ne, ne_eq] at h
      obtain ⟨⟨hpc, hne⟩, hrest⟩ := h
      have hlen := ih (c + (mem p).NextEntryOffset) hrest
        (fun x hx => hinside x (List.mem_cons_of_mem p hx))
      simp only [List.length_cons] at hlen ⊢
      omega

/-- The walk dereferences the cursor that a non-zero `NextEntryOffset` leads to,
wherever that cursor lies. -/
theorem recordWalk_reads_next (mem : Memory) (fuel c : Nat)
    (h0 : (mem c).NextEntryOffset ≠ 0) :
    c + (mem c).NextEntryOffset ∈ (recordWalk mem (fuel + 2) c).reads := by
  by_cases h1 : (mem (c + (mem c).NextEntryOffset)).NextEntryOffset = 0 <;>
    simp [recordWalk, h0, h1]

/-- C2 (as stated it fails): the buffer of `corruptMemory` is declared 512 bytes
long and its first record, reached by the walk at cursor 0, has NextEntryOffset
1024, which moves the cursor past the end of the buffer. The walk does not fail: it
dereferences the record at cursor 1024, behind the buffer, and, the memory there
holding NextEntryOffset 0, it ends normally and main returns exit code 0. -/
theorem recordWalk_reads_behind_buffer :
    (corruptMemory 0).NextEntryOffset = 1024 ∧
      ¬ (0 + (corruptMemory 0).NextEntryOffset < corruptBufferSize) ∧
      corruptBufferSize ≤ 1024 ∧
      fetch corruptKernel = .filled corruptBufferSize 2 ∧
      (recordWalk corruptMemory 2 0).done = true ∧
      1024 ∈ (recordWalk corruptMemory 2 0).reads ∧
      (main corruptKernel deniedApi qsortStable 2).map (fun r => r.exitCode) = some 0 := by
  decide

/-- C2 (amended): the record walk does not bound the cursor by bufferSize and has no
MalformedBuffer failure. After a record with a non-zero NextEntryOffset it
dereferences the record at the next cursor wherever that lies, also behind the end
of the buffer (second part). It reads no record outside the buffer when the buffer
holds a valid record chain that lies inside it: for a chain of N records from
cursor 0 on, each record of recordSize bytes (at least the 4 bytes of
NextEntryOffset) ending at or before bufferSize, the walk ends after N rounds, the
cursors it dereferences are exactly the N cursors of the chain, each below
bufferSize with the NextEntryOffset it reads and its whole record inside the
buffer, and it stores fewer than bufferSize pointers in processArray (first
part). -/
theorem recordWalk_in_bounds_of_chain_inside (mem : Memory) (recordSize bufferSize : Nat)
    (ps : List Nat) (hsize : sizeofULONG ≤ recordSize) (hchain : isChain mem 0 ps = true)
    (hinside : ∀ p ∈ ps, p + recordSize ≤ bufferSize) :
    ((recordWalk mem ps.length 0).done = true ∧
        (recordWalk mem ps.length 0).reads = ps ∧
        (∀ x ∈ (recordWalk mem ps.length 0).reads,
          x < bufferSize ∧ x + sizeofULONG ≤ bufferSize ∧ x + recordSize ≤ bufferSize) ∧
        (recordWalk mem ps.length 0).processArray.length < bufferSize) ∧
      ∀ (fuel c : Nat), (mem c).NextEntryOffset ≠ 0 →
        c + (mem c).NextEntryOffset ∈ (recordWalk mem (fuel + 2) c).reads := by
  have h4 : sizeofULONG = 4 := rfl
  have hwalk := recordWalk_of_isChain mem ps 0 ps.length hchain (Nat.le_refl _)
  have hlen := isChain_length_le mem recordSize bufferSize (by omega) ps 0 hchain hinside
  have hne : ps ≠ [] := by
    intro hnil
    rw [hnil] at hchain
    simp [isChain] at hchain
  have hpos : 0 < ps.length := List.length_pos.mpr hne
  refine ⟨?_, fun fuel c h0 => recordWalk_reads_next mem fuel c h0⟩
  rw [hwalk]
  refine ⟨rfl, rfl, ?_, ?_⟩
  · intro x hx
    have := hinside x hx
    omega
  · simp only [List.length_dropLast]
    omega

/-- The 768-byte buffer of `threeRecordMemory` holds a chain of three records of
256 bytes that lies inside it; the walk dereferences the cursors 0, 256 and 512 and
no other. -/
theorem recordWalk_in_bounds_of_chain_inside_witness :
    (sizeofULONG ≤ 256 ∧ isChain threeRecordMemory 0 [0, 256, 512] = true ∧
        ∀ p ∈ ([0, 256, 512] : List Nat), p + 256 ≤ 768) ∧
      ((recordWalk threeRecordMemory ([0, 256, 512] : List Nat).length 0).done = true ∧
        (recordWalk threeRecordMemory ([0, 256, 512] : List Nat).length 0).reads =
          [0, 256, 512] ∧
        (∀ x ∈ (recordWalk threeRecordMemory ([0, 256, 512] : List Nat).length 0).reads,
          x < 768 ∧ x + sizeofULONG ≤ 768 ∧ x + 256 ≤ 768) ∧
        (recordWalk threeRecordMemory ([0, 256, 512] : List Nat).length 0).processArray.length <
          768) ∧
      ∀ (fuel c : Nat), (threeRecordMemory c).NextEntryOffset ≠ 0 →
        c + (threeRecordMemory c).NextEntryOffset ∈
          (recordWalk threeRecordMemory (fuel + 2) c).reads :=
  ⟨⟨by decide, by decide, by decide⟩,
    recordWalk_in_bounds_of_chain_inside threeRecordMemory 256 768 [0, 256, 512] (by decide)
      (by decide) (by decide)⟩

/-! ## The ordering step -/

/-- An insertion sort by `cmp a b ≤ 0` meets the contract of `qsort`, whatever the
order in which it is fed the elements. -/
theorem insertionSort_contract {α : Type} (cmp : α → α → Int)
    (hcmp : ConsistentComparator cmp) (l : List α) :
    (l.insertionSort (fun a b => cmp a b ≤ 0)).Perm l ∧
      (l.insertionSort (fun a b => cmp a b ≤ 0)).Pairwise (fun a b => cmp a b ≤ 0) := by
  haveI : IsTotal α (fun a b => cmp a b ≤ 0) := by
    refine ⟨fun a b => ?_⟩
    by_cases h : cmp a b ≤ 0
    · exact Or.inl h
    · exact Or.inr (le_of_lt ((hcmp.1 b a).mpr (by omega)))
  haveI : IsTrans α (fun a b => cmp a b ≤ 0) := ⟨fun a b c => hcmp.2 a b c⟩
  exact ⟨List.perm_insertionSort _ l, List.sorted_insertionSort _ l⟩

/-- The stable insertion sort is a `qsort` in the sense of the C standard. -/
theorem qsortStable_contract {α : Type} :
    QsortContract (qsortStable : (α → α → Int) → List α → List α) := by
  intro cmp hcmp l
  exact insertionSort_contract cmp hcmp l

/-- The insertion sort that reverses ties is a `qsort` in the sense of the C
standard as well. -/
theorem qsortTiesReversed_contract {α : Type} :
    QsortContract (qsortTiesReversed : (α → α → Int) → List α → List α) := by
  intro cmp hcmp l
  have h := insertionSort_contract cmp hcmp l.reverse
  exact ⟨h.1.trans (List.reverse_perm l), h.2⟩

/-- The output of the ordering step is a permutation of `processArray` that is
ascending in `CreateTime`. -/
theorem orderStep_perm_pairwise (qsort : (Nat → Nat → Int) → List Nat → List Nat)
    (hq : QsortContract qsort) (mem : Memory) (processArray : List Nat) :
    (orderStep qsort mem processArray).Perm processArray ∧
      (orderStep qsort mem processArray).Pairwise
        (fun a b => (mem a).CreateTime ≤ (mem b).CreateTime) := by
  have h := hq (compareProcessCreationTime mem) (compareProcessCreationTime_consistent mem)
    processArray
  refine ⟨h.1, ?_⟩
  have h2 := h.2
  simp only [compareProcessCreationTime_le_zero] at h2
  exact h2

/-- C3: for every sequence of collected process records and every qsort that meets
the C standard's contract, the ordering step yields a permutation of the input
(every pointer, and every record, occurs as often as in the input) in which
CreateTime is non-decreasing: for all positions j < k of the output,
output[j].CreateTime ≤ output[k].CreateTime. -/
theorem orderStep_sorted_permutation (qsort : (Nat → Nat → Int) → List Nat → List Nat)
    (hq : QsortContract qsort) (mem : Memory) (processArray : List Nat) :
    (orderStep qsort mem processArray).Perm processArray ∧
      (∀ r, ((orderStep qsort mem processArray).map mem).count r =
        (processArray.map mem).count r) ∧
      ∀ (j k : Nat) (hj : j < (orderStep qsort mem processArray).length)
        (hk : k < (orderStep qsort mem processArray).length), j < k →
        (mem ((orderStep qsort mem processArray)[j])).CreateTime ≤
          (mem ((orderStep qsort mem processArray)[k])).CreateTime := by
  have h := orderStep_perm_pairwise qsort hq mem processArray
  refine ⟨h.1, fun r => (h.1.map mem).count_eq r, ?_⟩
  exact List.pairwise_iff_getElem.mp h.2

/-- The five records created at 3, 1, 4, 1, 5, ordered with the stable insertion
sort. -/
theorem orderStep_sorted_permutation_witness :
    QsortContract (qsortStable : (Nat → Nat → Int) → List Nat → List Nat) ∧
      (orderStep qsortStable fiveRecordMemory fiveRecordArray).Perm fiveRecordArray ∧
      (∀ r, ((orderStep qsortStable fiveRecordMemory fiveRecordArray).map
          fiveRecordMemory).count r = (fiveRecordArray.map fiveRecordMemory).count r) ∧
      ∀ (j k : Nat) (hj : j < (orderStep qsortStable fiveRecordMemory fiveRecordArray).length)
        (hk : k < (orderStep qsortStable fiveRecordMemory fiveRecordArray).length), j < k →
        (fiveRecordMemory ((orderStep qsortStable fiveRecordMemory fiveRecordArray)[j])).CreateTime ≤
          (fiveRecordMemory
            ((orderStep qsortStable fiveRecordMemory fiveRecordArray)[k])).CreateTime :=
  ⟨qsortStable_contract,
    orderStep_sorted_permutation qsortStable qsortStable_contract fiveRecordMemory
      fiveRecordArray⟩

/-- C4 (as stated it fails): `qsortTiesReversed` meets the contract of qsort, the
records of the processes 2 and 4 have the same creation time, and the ordering
step with this qsort puts process 4 before process 2: the five records created at
3, 1, 4, 1, 5 come out with the ids 4, 2, 1, 3, 5 and not 2, 4, 1, 3, 5. -/
theorem orderStep_ties_reversed :
    QsortContract (qsortTiesReversed : (Nat → Nat → Int) → List Nat → List Nat) ∧
      (fiveRecordMemory 64).CreateTime = (fiveRecordMemory 192).CreateTime ∧
      orderStep qsortTiesReversed fiveRecordMemory fiveRecordArray = [192, 64, 0, 128, 256] ∧
      (orderStep qsortTiesReversed fiveRecordMemory fiveRecordArray).map
        (fun p => (fiveRecordMemory p).UniqueProcessId) = [4, 2, 1, 3, 5] ∧
      (orderStep qsortTiesReversed fiveRecordMemory fiveRecordArray).map
        (fun p => (fiveRecordMemory p).UniqueProcessId) ≠ [2, 4, 1, 3, 5] :=
  ⟨qsortTiesReversed_contract, by decide, by decide, by decide, by decide⟩

/-- The creation times of the output of the ordering step are the creation times of
the input in ascending order, whichever conforming qsort is used. -/
theorem orderStep_times (qsort : (Nat → Nat → Int) → List Nat → List Nat)
    (hq : QsortContract qsort) (mem : Memory) (processArray : List Nat) :
    (orderStep qsort mem processArray).map (fun p => (mem p).CreateTime) =
      (processArray.map (fun p => (mem p).CreateTime)).insertionSort (fun s t => s ≤ t) := by
  have h := orderStep_perm_pairwise qsort hq mem processArray
  refine @List.eq_of_perm_of_sorted Int (fun s t => s ≤ t) _ _ _ ?_ ?_ ?_
  · exact (h.1.map _).trans (List.perm_insertionSort _ _).symm
  · exact List.pairwise_map.mpr h.2
  · exact List.sorted_insertionSort _ _

/-- C4 (amended): the ordering step is only as stable as the qsort of the C library,
for compareProcessCreationTime answers 0 for two records created at the same time
and main adds no tie-break. For every qsort that meets the C standard's contract
the creation times of the output are those of the input in ascending order, and the
records created at any one time are the same records as in the input, in an order
the contract leaves open. For the 5 records with ids 1..5 and creation timestamps
[3,1,4,1,5] the ordered output has the ids [2,4,1,3,5] or [4,2,1,3,5]. -/
theorem orderStep_ties_unspecified (qsort : (Nat → Nat → Int) → List Nat → List Nat)
    (hq : QsortContract qsort) :
    (∀ (mem : Memory) (processArray : List Nat),
        (orderStep qsort mem processArray).map (fun p => (mem p).CreateTime) =
          (processArray.map (fun p => (mem p).CreateTime)).insertionSort (fun s t => s ≤ t)) ∧
      (∀ (mem : Memory) (processArray : List Nat) (t : Int),
        ((orderStep qsort mem processArray).filter (fun p => (mem p).CreateTime = t)).Perm
          (processArray.filter (fun p => (mem p).CreateTime = t))) ∧
      ((orderStep qsort fiveRecordMemory fiveRecordArray).map
            (fun p => (fiveRecordMemory p).UniqueProcessId) = [2, 4, 1, 3, 5] ∨
        (orderStep qsort fiveRecordMemory fiveRecordArray).map
            (fun p => (fiveRecordMemory p).UniqueProcessId) = [4, 2, 1, 3, 5]) := by
  refine ⟨fun mem arr => orderStep_times qsort hq mem arr, fun mem arr t => ?_, ?_⟩
  · exact (orderStep_perm_pairwise qsort hq mem arr).1.filter _
  · have hperm := (orderStep_perm_pairwise qsort hq fiveRecordMemory fiveRecordArray).1
    have htimes := orderStep_times qsort hq fiveRecordMemory fiveRecordArray
    have hsorted : (fiveRecordArray.map (fun p => (fiveRecordMemory p).CreateTime)).insertionSort
        (fun s t => s ≤ t) = [1, 1, 3, 4, 5] := by decide
    rw [hsorted] at htimes
    generalize orderStep qsort fiveRecordMemory fiveRecordArray = out at hperm htimes
    have hnodup : out.Nodup := hperm.nodup_iff.mpr (by decide)
    have hmem : ∀ p ∈ out, p = 0 ∨ p = 64 ∨ p = 128 ∨ p = 192 ∨ p = 256 := by
      intro p hp
      simpa [fiveRecordArray] using hperm.subset hp
    rcases out with _ | ⟨a, _ | ⟨b, _ | ⟨c, _ | ⟨d, _ | ⟨e, _ | ⟨f, rest⟩⟩⟩⟩⟩⟩
    all_goals try (simp at htimes; done)
    · simp only [List.map_cons, List.map_nil, List.cons.injEq, and_true] at htimes
      obtain ⟨ha, hb, hc, hd, he⟩ := htimes
      have ha' : a = 64 ∨ a = 192 := by
        rcases hmem a (by simp) with rfl | rfl | rfl | rfl | rfl <;>
          first
            | (exfalso; revert ha; decide)
            | simp
      have hb' : b = 64 ∨ b = 192 := by
        rcases hmem b (by simp) with rfl | rfl | rfl | rfl | rfl <;>
          first
            | (exfalso; revert hb; decide)
            | simp
      have hc' : c = 0 := by
        rcases hmem c (by simp) with rfl | rfl | rfl | rfl | rfl <;>
          first
            | (exfalso; revert hc; decide)
            | rfl
      have hd' : d = 128 := by
        rcases hmem d (by simp) with rfl | rfl | rfl | rfl | rfl <;>
          first
            | (exfalso; revert hd; decide)
            | rfl
      have he' : e = 256 := by
        rcases hmem e (by simp) with rfl | rfl | rfl | rfl | rfl <;>
          first
            | (exfalso; revert he; decide)
            | rfl
      have hab : a ≠ b := by
        intro hab
        simp [hab] at hnodup
      subst hc' hd' he'
      rcases ha' with rfl | rfl <;> rcases hb' with rfl | rfl
      · exact absurd rfl hab
      · left; decide
      · right; decide
      · exact absurd rfl hab

/-- The stable insertion sort meets the contract, and with it the five records come
out with the ids 2, 4, 1, 3, 5. -/
theorem orderStep_ties_unspecified_witness :
    QsortContract (qsortStable : (Nat → Nat → Int) → List Nat → List Nat) ∧
      (orderStep qsortStable fiveRecordMemory fiveRecordArray).map
        (fun p => (fiveRecordMemory p).UniqueProcessId) = [2, 4, 1, 3, 5] ∧
      ((orderStep qsortStable fiveRecordMemory fiveRecordArray).map
            (fun p => (fiveRecordMemory p).UniqueProcessId) = [2, 4, 1, 3, 5] ∨
        (orderStep qsortStable fiveRecordMemory fiveRecordArray).map
            (fun p => (fiveRecordMemory p).UniqueProcessId) = [4, 2, 1, 3, 5]) :=
  ⟨qsortStable_contract, by decide,
    (orderStep_ties_unspecified qsortStable qsortStable_contract).2.2⟩

/-! ## The buffer fetch -/

/-- C5 (as stated it fails): with `growingKernel` the size probe and the fill call
both answer STATUS_INFO_LENGTH_MISMATCH and a third call would succeed, so there is
neither a third mismatch nor another failure status; yet the fetch does not retry:
after two calls main returns exit code 1. -/
theorem fetch_gives_up_on_second_mismatch :
    (growingKernel.NtQuerySystemInformation 0 0).1 = STATUS_INFO_LENGTH_MISMATCH ∧
      (growingKernel.NtQuerySystemInformation 1 64).1 = STATUS_INFO_LENGTH_MISMATCH ∧
      (growingKernel.NtQuerySystemInformation 2 128).1 = STATUS_SUCCESS ∧
      fetch growingKernel = .exit 1 (some STATUS_INFO_LENGTH_MISMATCH) 2 ∧
      main growingKernel deniedApi qsortStable 5 =
        some { exitCode := 1, diagnostic := some (some STATUS_INFO_LENGTH_MISMATCH),
               blocks := [], openHandles := [], queries := 2 } := by
  decide

/-- C5 (amended): the buffer fetch of qsysinfo.c does not retry. If the size probe
returns STATUS_INFO_LENGTH_MISMATCH, the buffer is allocated, and the following
fill call returns any status other than STATUS_SUCCESS, a first
STATUS_INFO_LENGTH_MISMATCH included, then main prints that status and returns
exit code 1 after exactly two calls of NtQuerySystemInformation, without walking
or printing a record. -/
theorem main_exits_on_failed_fill (k : Kernel) (api : ProcessApi)
    (qsort : (Nat → Nat → Int) → List Nat → List Nat) (fuel : Nat)
    (hprobe : (k.NtQuerySystemInformation 0 0).1 = STATUS_INFO_LENGTH_MISMATCH)
    (halloc : k.malloc 0 (k.NtQuerySystemInformation 0 0).2 = true)
    (hfill : (k.NtQuerySystemInformation 1 (k.NtQuerySystemInformation 0 0).2).1 ≠
      STATUS_SUCCESS) :
    STATUS_INFO_LENGTH_MISMATCH ≠ STATUS_SUCCESS ∧
      fetch k = .exit 1
        (some (k.NtQuerySystemInformation 1 (k.NtQuerySystemInformation 0 0).2).1) 2 ∧
      main k api qsort fuel =
        some { exitCode := 1
               diagnostic :=
                some (some (k.NtQuerySystemInformation 1 (k.NtQuerySystemInformation 0 0).2).1)
               blocks := [], openHandles := [], queries := 2 } := by
  have hfetch : fetch k = .exit 1
      (some (k.NtQuerySystemInformation 1 (k.NtQuerySystemInformation 0 0).2).1) 2 := by
    simp [fetch, hprobe, halloc, hfill]
  refine ⟨by decide, hfetch, ?_⟩
  simp [main, hfetch]

/-- With `growingKernel` the fill call answers a second length mismatch and main
returns exit code 1 after two queries. -/
theorem main_exits_on_failed_fill_witness :
    STATUS_INFO_LENGTH_MISMATCH ≠ STATUS_SUCCESS ∧
      fetch growingKernel = .exit 1
        (some (growingKernel.NtQuerySystemInformation 1
          (growingKernel.NtQuerySystemInformation 0 0).2).1) 2 ∧
      main growingKernel deniedApi qsortStable 5 =
        some { exitCode := 1
               diagnostic :=
                some (some (growingKernel.NtQuerySystemInformation 1
                  (growingKernel.NtQuerySystemInformation 0 0).2).1)
               blocks := [], openHandles := [], queries := 2 } :=
  main_exits_on_failed_fill growingKernel deniedApi qsortStable 5 (by decide) (by decide)
    (by decide)

/-! ## The reporter loop -/

/-- A round of the reporter loop closes the handle it opens: the open handles are
the same after the round as before. -/
theorem reportOne_openHandles (api : ProcessApi) (mem : Memory) (j current : Nat)
    (st : ReportState) : (reportOne api mem j current st).openHandles = st.openHandles := by
  unfold reportOne
  cases api.OpenProcess j (PtrToUlong (mem current).UniqueProcessId) with
  | none => rfl
  | some hProcess => simp [CloseHandle]

/-- The reporter loop leaves no handle open that was not open before it. -/
theorem reporterLoop_openHandles (api : ProcessApi) (mem : Memory) :
    ∀ (processArray : List Nat) (j : Nat) (st : ReportState),
      (reporterLoop api mem j processArray st).openHandles = st.openHandles := by
  intro processArray
  induction processArray with
  | nil => intro j st; rfl
  | cons current rest ih =>
    intro j st
    simp only [reporterLoop]
    rw [ih, reportOne_openHandles]

/-- A round in which `OpenProcess` fails prints nothing. -/
theorem reportOne_of_open_failed (api : ProcessApi) (mem : Memory) (j current : Nat)
    (st : ReportState)
    (h : api.OpenProcess j (PtrToUlong (mem current).UniqueProcessId) = none) :
    reportOne api mem j current st = st := by
  simp [reportOne, h]

/-- A round in which the three queries succeed prints one block, the one of the
record at `current`. -/
theorem reportOne_of_queriesSucceed (api : ProcessApi) (mem : Memory) (j current : Nat)
    (st : ReportState) (h : queriesSucceed api mem j current = true) :
    (reportOne api mem j current st).blocks.map blockFields =
      st.blocks.map blockFields ++ [recordFields api mem current] := by
  unfold queriesSucceed at h
  unfold reportOne
  cases hopen : api.OpenProcess j (PtrToUlong (mem current).UniqueProcessId) with
  | none => simp [hopen] at h
  | some hProcess =>
    simp only [hopen] at h
    cases htimes : api.GetProcessTimes hProcess with
    | none => simp [htimes] at h
    | some creationTime =>
      simp only [htimes] at h
      cases hconv : api.FileTimeToSystemTime creationTime with
      | none => simp [hconv] at h
      | some stCreation => simp [htimes, hconv, blockFields, recordFields]

/-- When the queries succeed in every round, the loop prints the blocks of all the
records, in the order of the array. -/
theorem reporterLoop_of_all_succeed (api : ProcessApi) (mem : Memory) :
    ∀ (processArray : List Nat) (s : Nat) (st : ReportState),
      (∀ (j : Nat) (hj : j < processArray.length),
        queriesSucceed api mem (s + j) processArray[j] = true) →
      (reporterLoop api mem s processArray st).blocks.map blockFields =
        st.blocks.map blockFields ++ processArray.map (recordFields api mem) := by
  intro processArray
  induction processArray with
  | nil => intro s st _; simp [reporterLoop]
  | cons current rest ih =>
    intro s st hall
    simp only [reporterLoop]
    rw [ih (s + 1) _ (fun j hj => ?_)]
    · rw [reportOne_of_queriesSucceed api mem s current st (by simpa using hall 0 (by simp))]
      simp
    · have := hall (j + 1) (by simpa using hj)
      simpa [Nat.add_assoc, Nat.add_comm 1 j] using this

/-- When `OpenProcess` fails in round `j0` and the queries succeed in every other
round, the loop prints the blocks of all the records but the one of round `j0`, in
the order of the array. -/
theorem reporterLoop_of_one_failed (api : ProcessApi) (mem : Memory) :
    ∀ (processArray : List Nat) (s j0 : Nat) (st : ReportState)
      (hj0 : j0 < processArray.length),
      api.OpenProcess (s + j0) (PtrToUlong (mem processArray[j0]).UniqueProcessId) = none →
      (∀ (j : Nat) (hj : j < processArray.length), j ≠ j0 →
        queriesSucceed api mem (s + j) processArray[j] = true) →
      (reporterLoop api mem s processArray st).blocks.map blockFields =
        st.blocks.map blockFields ++ (processArray.eraseIdx j0).map (recordFields api mem) := by
  intro processArray
  induction processArray with
  | nil => intro s j0 st hj0; simp at hj0
  | cons current rest ih =>
    intro s j0 st hj0 hfail hothers
    simp only [reporterLoop]
    cases j0 with
    | zero =>
      rw [reportOne_of_open_failed api mem s current st (by simpa using hfail)]
      rw [reporterLoop_of_all_succeed api mem rest (s + 1) st (fun j hj => ?_)]
      · simp
      · have := hothers (j + 1) (by simpa using hj) (by omega)
        simpa [Nat.add_assoc, Nat.add_comm 1 j] using this
    | succ n =>
      have hn : n < rest.length := by simpa using hj0
      rw [ih (s + 1) n _ hn ?_ (fun j hj hne => ?_)]
      · rw [reportOne_of_queriesSucceed api mem s current st
          (by simpa using hothers 0 (by simp) (by omega))]
        simp
      · simpa [Nat.add_assoc, Nat.add_comm 1 n] using hfail
      · have := hothers (j + 1) (by simpa using hj) (by omega)
        simpa [Nat.add_assoc, Nat.add_comm 1 j] using this

/-- C6: for every ordered array of process records and every outcome of the
per-process queries, if OpenProcess fails for the record of one round and
OpenProcess, GetProcessTimes and FileTimeToSystemTime succeed for all the others,
the report contains a block for each of the other records, in order, none for the
failed record, and the exit code is 0; a run of main whose fetch and walk have
produced this array returns exactly this report with exit code 0. -/
theorem reportPhase_omits_only_failed_open (api : ProcessApi) (mem : Memory)
    (processArray : List Nat) (queries j0 : Nat) (hj0 : j0 < processArray.length)
    (hfail : api.OpenProcess j0 (PtrToUlong (mem processArray[j0]).UniqueProcessId) = none)
    (hothers : ∀ (j : Nat) (hj : j < processArray.length), j ≠ j0 →
      queriesSucceed api mem j processArray[j] = true) :
    (reportPhase api mem processArray queries).exitCode = 0 ∧
      (reportPhase api mem processArray queries).blocks.map blockFields =
        (processArray.eraseIdx j0).map (recordFields api mem) ∧
      (reportPhase api mem processArray queries).blocks.length = processArray.length - 1 ∧
      ∀ (k : Kernel) (qsort : (Nat → Nat → Int) → List Nat → List Nat)
        (fuel bufferSize : Nat), k.memory = mem → fetch k = .filled bufferSize queries →
        (recordWalk mem fuel 0).done = true →
        orderStep qsort mem (recordWalk mem fuel 0).processArray = processArray →
        main k api qsort fuel = some (reportPhase api mem processArray queries) := by
  have hblocks : (reportPhase api mem processArray queries).blocks.map blockFields =
      (processArray.eraseIdx j0).map (recordFields api mem) := by
    have h := reporterLoop_of_one_failed api mem processArray 0 j0 ⟨[], []⟩ hj0
      (by simpa using hfail) (fun j hj hne => by simpa using hothers j hj hne)
    simpa [reportPhase] using h
  refine ⟨rfl, hblocks, ?_, ?_⟩
  · have h := congrArg List.length hblocks
    simpa [List.length_eraseIdx, hj0] using h
  · intro k qsort fuel bufferSize hmem hfetch hdone horder
    subst hmem
    simp [main, hfetch, hdone, horder]

/-- A run of main over the five-record buffer: the walk collects the records of the
processes 1..4, the stable sort orders them 2, 4, 1, 3, the process of round 1
(process 4) cannot be opened, and the report has the blocks of 2, 1, 3 with exit
code 0. -/
theorem reportPhase_omits_only_failed_open_witness :
    (orderStep qsortStable fiveRecordMemory (recordWalk fiveRecordMemory 5 0).processArray =
        [64, 192, 0, 128]) ∧
      (main healthyKernel secondDeniedApi qsortStable 5).map
        (fun r => (r.exitCode, r.blocks.map (fun b => b.pid))) = some (0, [2, 1, 3]) ∧
      (reportPhase secondDeniedApi fiveRecordMemory [64, 192, 0, 128] 2).exitCode = 0 ∧
      (reportPhase secondDeniedApi fiveRecordMemory [64, 192, 0, 128] 2).blocks.map blockFields =
        (([64, 192, 0, 128] : List Nat).eraseIdx 1).map
          (recordFields secondDeniedApi fiveRecordMemory) ∧
      (reportPhase secondDeniedApi fiveRecordMemory [64, 192, 0, 128] 2).blocks.length =
        ([64, 192, 0, 128] : List Nat).length - 1 ∧
      ∀ (k : Kernel) (qsort : (Nat → Nat → Int) → List Nat → List Nat)
        (fuel bufferSize : Nat), k.memory = fiveRecordMemory →
        fetch k = .filled bufferSize 2 →
        (recordWalk fiveRecordMemory fuel 0).done = true →
        orderStep qsort fiveRecordMemory (recordWalk fiveRecordMemory fuel 0).processArray =
          [64, 192, 0, 128] →
        main k secondDeniedApi qsort fuel =
          some (reportPhase secondDeniedApi fiveRecordMemory [64, 192, 0, 128] 2) :=
  ⟨by decide, by decide,
    reportPhase_omits_only_failed_open secondDeniedApi fiveRecordMemory [64, 192, 0, 128] 2 1
      (by decide) (by decide) (by decide)⟩

/-! ## Strings of `vwin.c` -/

/-- No character of a C string is NUL. -/
theorem cstr_ne_zero (buf : List Nat) : ∀ c ∈ cstr buf, c ≠ 0 := by
  intro c hc
  simpa using (List.mem_takeWhile_imp hc)

/-- A run of non-NUL characters followed by a NUL reads back as that run. -/
theorem cstr_append_zero (s rest : List Nat) (hs : ∀ c ∈ s, c ≠ 0) :
    cstr (s ++ 0 :: rest) = s := by
  unfold cstr
  rw [List.takeWhile_append_of_pos (by simpa using hs)]
  simp

/-- The string that `GetWindowText` leaves in the array `title`. -/
theorem cstr_GetWindowText (w : WindowApi) (hwnd n : Nat) :
    cstr (GetWindowText w hwnd n) = (cstr (w.windowText hwnd)).take (n - 1) := by
  unfold GetWindowText
  exact cstr_append_zero _ [] (fun c hc => cstr_ne_zero _ c (List.mem_of_mem_take hc))

/-- `strncpy` into a zeroed array of `n + 1` bytes: the array keeps its size, its
last byte stays NUL, and it holds the first `n` characters of the source. -/
theorem strncpy_zeroed (src : List Nat) (n : Nat) :
    (strncpy (List.replicate (n + 1) 0) src n).length = n + 1 ∧
      (strncpy (List.replicate (n + 1) 0) src n)[n]? = some 0 ∧
      cstr (strncpy (List.replicate (n + 1) 0) src n) = (cstr src).take n := by
  have hlen : ((cstr src).take n).length ≤ n := by simp
  have hdrop : (List.replicate (n + 1) 0).drop n = [0] := by simp
  refine ⟨?_, ?_, ?_⟩
  · simp only [strncpy, hdrop, List.length_append, List.length_replicate, List.length_cons,
      List.length_nil]
    omega
  · simp only [strncpy, hdrop]
    rw [List.getElem?_append_right (by simp)]
    simp
  · simp only [strncpy, hdrop]
    rw [List.append_assoc]
    have hrest : List.replicate (n - ((cstr src).take n).length) 0 ++ [0] =
        0 :: List.replicate (n - ((cstr src).take n).length) 0 := by
      rw [← List.replicate_succ, List.replicate_succ']
    rw [hrest]
    exact cstr_append_zero _ _ (fun c hc => cstr_ne_zero _ c (List.mem_of_mem_take hc))

/-- The title field of a recorded window: 256 bytes, the last one NUL, holding the
first 255 characters of the window text. -/
theorem recordedWindow_title (w : WindowApi) (hwnd pid : Nat) (localSt : SYSTEMTIME) :
    (recordedWindow w hwnd pid localSt).title.length = 256 ∧
      (recordedWindow w hwnd pid localSt).title[255]? = some 0 ∧
      cstr (recordedWindow w hwnd pid localSt).title = (cstr (w.windowText hwnd)).take 255 := by
  have h := strncpy_zeroed (GetWindowText w hwnd 256) 255
  refine ⟨h.1, h.2.1, ?_⟩
  have h3 := h.2.2
  rw [cstr_GetWindowText, List.take_take] at h3
  exact h3

/-- C8 (as stated it fails): a visible window of process 7 whose title has 41
characters is recorded and rendered with all 41 characters in the title column;
the title is not cut to the 40 characters of the column. -/
theorem long_title_not_cut_to_column :
    (cstr (longTitleDesktop.windowText 1)).length = 41 ∧
      (vwinMain longTitleDesktop openApi zeroTime qsortStable [1]).map
        (fun r => r.rows.map (fun row => row.titleColumn.length)) = some [41] ∧
      (cstr (recordedWindow longTitleDesktop 1 7 zeroTime).title).length = 41 ∧
      (renderRow (recordedWindow longTitleDesktop 1 7 zeroTime)).titleColumn.length ≠ 40 := by
  decide

/-- C8 (amended): for every window whose source title is longer than the 40
characters of the title column, the title that vwin.c records is the source title
cut to the 255 characters that fit the title field, not to 40, and the row renders
the recorded title whole, without padding: the title column has min(length, 255)
characters, more than 40. The copy into WindowInfo.title stays inside the 256-byte
field, whose last byte is NUL. -/
theorem title_cut_to_field_only (w : WindowApi) (hwnd pid : Nat) (localSt : SYSTEMTIME)
    (hlong : 40 < (cstr (w.windowText hwnd)).length) :
    (recordedWindow w hwnd pid localSt).title.length = 256 ∧
      (recordedWindow w hwnd pid localSt).title[255]? = some 0 ∧
      cstr (recordedWindow w hwnd pid localSt).title = (cstr (w.windowText hwnd)).take 255 ∧
      (renderRow (recordedWindow w hwnd pid localSt)).titleColumn =
        (cstr (w.windowText hwnd)).take 255 ∧
      (renderRow (recordedWindow w hwnd pid localSt)).titleColumn.length =
        min (cstr (w.windowText hwnd)).length 255 ∧
      40 < (renderRow (recordedWindow w hwnd pid localSt)).titleColumn.length := by
  obtain ⟨hlen, hlast, hstr⟩ := recordedWindow_title w hwnd pid localSt
  have hcol : (renderRow (recordedWindow w hwnd pid localSt)).titleColumn =
      (cstr (w.windowText hwnd)).take 255 := by
    have hpad : 40 - ((cstr (w.windowText hwnd)).take 255).length = 0 := by
      simp only [List.length_take]
      omega
    simp only [renderRow, fmtLeft, hstr]
    rw [hpad]
    simp
  refine ⟨hlen, hlast, hstr, hcol, ?_, ?_⟩
  · rw [hcol, List.length_take, Nat.min_comm]
  · rw [hcol, List.length_take]
    omega

/-- A title of 41 characters is recorded and rendered with its 41 characters. -/
theorem title_cut_to_field_only_witness :
    40 < (cstr (longTitleDesktop.windowText 1)).length ∧
      (recordedWindow longTitleDesktop 1 7 zeroTime).title.length = 256 ∧
      (recordedWindow longTitleDesktop 1 7 zeroTime).title[255]? = some 0 ∧
      cstr (recordedWindow longTitleDesktop 1 7 zeroTime).title =
        (cstr (longTitleDesktop.windowText 1)).take 255 ∧
      (renderRow (recordedWindow longTitleDesktop 1 7 zeroTime)).titleColumn =
        (cstr (longTitleDesktop.windowText 1)).take 255 ∧
      (renderRow (recordedWindow longTitleDesktop 1 7 zeroTime)).titleColumn.length =
        min (cstr (longTitleDesktop.windowText 1)).length 255 ∧
      40 < (renderRow (recordedWindow longTitleDesktop 1 7 zeroTime)).titleColumn.length :=
  ⟨by decide, title_cut_to_field_only longTitleDesktop 1 7 zeroTime (by decide)⟩

/-! ## The window walk -/

/-- The test `title[0] != '\0'` of line 30 holds exactly when the window text is
not empty. -/
theorem GetWindowText_head (w : WindowApi) (hwnd : Nat) :
    ((GetWindowText w hwnd 256).head? != some 0) = (cstr (w.windowText hwnd) != []) := by
  unfold GetWindowText
  cases htext : cstr (w.windowText hwnd) with
  | nil => simp
  | cons c rest =>
    have hc : c ≠ 0 := cstr_ne_zero (w.windowText hwnd) c (by simp [htext])
    simp [bne, hc]

/-- A round for a window that does not qualify leaves the state as it was. -/
theorem walkWindow_of_not_qualifies (w : WindowApi) (api : ProcessApi) (garbage : SYSTEMTIME)
    (k hwnd : Nat) (st : WindowWalkState) (h : windowQualifies w api k hwnd = false) :
    walkWindow w api garbage k hwnd st = some st := by
  unfold walkWindow
  unfold windowQualifies at h
  simp only [GetWindowText_head]
  cases hvis : w.IsWindowVisible hwnd && (cstr (w.windowText hwnd) != []) with
  | false => simp
  | true =>
    simp only [hvis, Bool.true_and] at h
    simp only [if_true]
    cases hopen : api.OpenProcess k (w.GetWindowThreadProcessId hwnd) with
    | none => rfl
    | some hProcess =>
      simp only [hopen] at h
      cases htimes : api.GetProcessTimes hProcess with
      | none => simp [htimes, CloseHandle]
      | some createTime => simp [htimes] at h

/-- A round for a window that qualifies stores its `WindowInfo` behind the windows
recorded so far and leaves the process handle open; with 1024 windows recorded
already the store is behind the end of the array. -/
theorem walkWindow_of_qualifies (w : WindowApi) (api : ProcessApi) (garbage : SYSTEMTIME)
    (k hwnd : Nat) (st : WindowWalkState) (h : windowQualifies w api k hwnd = true) :
    ∃ (localSt : SYSTEMTIME) (hProcess : Nat),
      api.OpenProcess k (w.GetWindowThreadProcessId hwnd) = some hProcess ∧
      walkWindow w api garbage k hwnd st =
        if st.windows.length < windowsCapacity then
          some { windows := st.windows ++
                   [recordedWindow w hwnd (w.GetWindowThreadProcessId hwnd) localSt]
                 openHandles := hProcess :: st.openHandles }
        else none := by
  unfold walkWindow
  unfold windowQualifies at h
  simp only [GetWindowText_head]
  simp only [Bool.and_eq_true] at h
  obtain ⟨hvis, hq⟩ := h
  cases hopen : api.OpenProcess k (w.GetWindowThreadProcessId hwnd) with
  | none => simp [hopen] at hq
  | some hProcess =>
    simp only [hopen] at hq
    cases htimes : api.GetProcessTimes hProcess with
    | none => simp [htimes] at hq
    | some createTime =>
      refine ⟨api.SystemTimeToTzSpecificLocalTime
        ((api.FileTimeToSystemTime createTime).getD garbage), hProcess, rfl, ?_⟩
      simp [hvis, htimes, recordedWindow]

/-- The fields of a recorded window are those the window manager reports. -/
theorem windowFields_recordedWindow (w : WindowApi) (hwnd pid : Nat) (localSt : SYSTEMTIME) :
    windowFields (recordedWindow w hwnd pid localSt) =
      ((cstr (w.windowText hwnd)).take 255, pid) := by
  have h := (recordedWindow_title w hwnd pid localSt).2.2
  simp only [windowFields, h]
  rfl

/-- The window walk as a whole. While the array has room for the qualifying windows
it records them, in the order of the chain, and leaves one handle open for each;
otherwise it stores behind the end of the array. -/
theorem walkWindows_spec (w : WindowApi) (api : ProcessApi) (garbage : SYSTEMTIME) :
    ∀ (chain : List Nat) (k : Nat) (st : WindowWalkState),
      st.windows.length ≤ windowsCapacity →
      (st.windows.length + (qualifyingWindows w api k chain).length ≤ windowsCapacity →
        ∃ st1, walkWindows w api garbage k chain st = some st1 ∧
          st1.windows.map windowFields = st.windows.map windowFields ++
            (qualifyingWindows w api k chain).map (fun kh => expectedFields w kh.2) ∧
          st1.openHandles.length =
            st.openHandles.length + (qualifyingWindows w api k chain).length) ∧
      (windowsCapacity < st.windows.length + (qualifyingWindows w api k chain).length →
        walkWindows w api garbage k chain st = none) := by
  intro chain
  induction chain with
  | nil =>
    intro k st hinv
    simp [walkWindows, qualifyingWindows]
    omega
  | cons hwnd rest ih =>
    intro k st hinv
    cases hq : windowQualifies w api k hwnd with
    | false =>
      have hstep := walkWindow_of_not_qualifies w api garbage k hwnd st hq
      have hqw : qualifyingWindows w api k (hwnd :: rest) = qualifyingWindows w api (k + 1) rest := by
        simp [qualifyingWindows, List.enumFrom_cons, List.filter_cons, hq]
      simp only [walkWindows, hstep, hqw]
      exact ih (k + 1) st hinv
    | true =>
      obtain ⟨localSt, hProcess, -, hstep⟩ := walkWindow_of_qualifies w api garbage k hwnd st hq
      have hqw : qualifyingWindows w api k (hwnd :: rest) =
          (k, hwnd) :: qualifyingWindows w api (k + 1) rest := by
        simp [qualifyingWindows, List.enumFrom_cons, List.filter_cons, hq]
      simp only [walkWindows, hstep, hqw, List.length_cons, List.map_cons]
      by_cases hroom : st.windows.length < windowsCapacity
      · simp only [hroom, if_true]
        have ih' := ih (k + 1) { windows := st.windows ++
            [recordedWindow w hwnd (w.GetWindowThreadProcessId hwnd) localSt]
                                 openHandles := hProcess :: st.openHandles }
          (by simp only [List.length_append, List.length_cons, List.length_nil]; omega)
        simp only [List.length_append, List.length_cons, List.length_nil, List.map_append,
          List.map_cons, List.map_nil, windowFields_recordedWindow] at ih'
        constructor
        · intro hle
          obtain ⟨st1, h1, h2, h3⟩ := ih'.1 (by omega)
          refine ⟨st1, h1, ?_, ?_⟩
          · rw [h2]
            simp [expectedFields]
          · rw [h3]
            omega
        · intro hgt
          exact ih'.2 (by omega)
      · simp only [hroom, if_false]
        constructor
        · intro hle
          omega
        · intro _
          trivial

/-- When the walk stores behind the end of the array, main has no defined result. -/
theorem vwinMain_of_walk_undefined (w : WindowApi) (api : ProcessApi) (garbage : SYSTEMTIME)
    (qsort : (WindowInfo → WindowInfo → Int) → List WindowInfo → List WindowInfo)
    (chain : List Nat) (h : walkWindows w api garbage 0 chain ⟨[], []⟩ = none) :
    vwinMain w api garbage qsort chain = none := by
  simp [vwinMain, h]

/-- C7 (as stated it fails): on a chain of 1025 windows that are all visible, all
titled and all owned by a process that can be opened and queried, the walk does not
record the 1025 windows: recording the last one is a store behind the end of the
array `windows[1024]`, and main has no defined result. -/
theorem walkWindows_overflows_array :
    crowdedChain.length = 1025 ∧
      (∀ k hwnd, windowQualifies crowdedDesktop openApi k hwnd = true) ∧
      (qualifyingWindows crowdedDesktop openApi 0 crowdedChain).length = 1025 ∧
      walkWindows crowdedDesktop openApi zeroTime 0 crowdedChain ⟨[], []⟩ = none ∧
      vwinMain crowdedDesktop openApi zeroTime qsortStable crowdedChain = none := by
  have hall : ∀ k hwnd, windowQualifies crowdedDesktop openApi k hwnd = true := by
    intro k hwnd
    rfl
  have hlen : (qualifyingWindows crowdedDesktop openApi 0 crowdedChain).length = 1025 := by
    have hfilter : (List.enumFrom 0 crowdedChain).filter
        (fun kh => windowQualifies crowdedDesktop openApi kh.1 kh.2) =
        List.enumFrom 0 crowdedChain :=
      List.filter_eq_self.mpr (fun kh _ => hall kh.1 kh.2)
    unfold qualifyingWindows
    rw [hfilter]
    simp [crowdedChain, List.enumFrom_length]
  have hnone : walkWindows crowdedDesktop openApi zeroTime 0 crowdedChain ⟨[], []⟩ = none := by
    apply (walkWindows_spec crowdedDesktop openApi zeroTime crowdedChain 0 ⟨[], []⟩
      (by simp)).2
    rw [hlen]
    decide
  exact ⟨by simp [crowdedChain], hall, hlen, hnone,
    vwinMain_of_walk_undefined crowdedDesktop openApi zeroTime qsortStable crowdedChain hnone⟩

/-- C7 (amended): for every chain of top-level windows of which at most 1024
qualify, that is, are visible, have a non-empty title and belong to a process that
could be opened and queried for its times, the walk of main of vwin.c ends with
exactly the qualifying windows recorded, in enumeration order, each with its title
(cut to 255 characters) and its process id. A window with an empty title is never
recorded, and a window that does not qualify does not stop the enumeration of the
windows after it. -/
theorem walkWindows_records_qualifying (w : WindowApi) (api : ProcessApi)
    (garbage : SYSTEMTIME) (chain : List Nat)
    (hcap : (qualifyingWindows w api 0 chain).length ≤ windowsCapacity) :
    ∃ st, walkWindows w api garbage 0 chain ⟨[], []⟩ = some st ∧
      st.windows.map windowFields =
        (qualifyingWindows w api 0 chain).map (fun kh => expectedFields w kh.2) ∧
      ∀ window ∈ st.windows, cstr window.title ≠ [] := by
  obtain ⟨st, hwalk, hfields, -⟩ :=
    (walkWindows_spec w api garbage chain 0 ⟨[], []⟩ (by simp)).1 (by simpa using hcap)
  simp only [List.map_nil, List.nil_append] at hfields
  refine ⟨st, hwalk, hfields, ?_⟩
  intro window hwindow
  have hmem : windowFields window ∈ st.windows.map windowFields :=
    List.mem_map_of_mem _ hwindow
  rw [hfields, List.mem_map] at hmem
  obtain ⟨kh, hkh, heq⟩ := hmem
  have hq : windowQualifies w api kh.1 kh.2 = true := by
    have := (List.mem_filter.mp hkh).2
    simpa using this
  have htext : cstr (w.windowText kh.2) ≠ [] := by
    unfold windowQualifies at hq
    simp only [Bool.and_eq_true] at hq
    simpa using hq.1.2
  have htitle : cstr window.title = (cstr (w.windowText kh.2)).take 255 := by
    have := congrArg Prod.fst heq
    simpa [expectedFields, windowFields] using this.symm
  rw [htitle]
  cases hc : cstr (w.windowText kh.2) with
  | nil => exact absurd hc htext
  | cons c rest => simp

/-- On `mixedDesktop` the walk records window 1 and window 4: window 2 has no title
and the process of window 3 cannot be opened. -/
theorem walkWindows_records_qualifying_witness :
    ((qualifyingWindows mixedDesktop mixedApi 0 [1, 2, 3, 4]).length ≤ windowsCapacity ∧
        qualifyingWindows mixedDesktop mixedApi 0 [1, 2, 3, 4] = [(0, 1), (3, 4)]) ∧
      ∃ st, walkWindows mixedDesktop mixedApi zeroTime 0 [1, 2, 3, 4] ⟨[], []⟩ = some st ∧
        st.windows.map windowFields =
          (qualifyingWindows mixedDesktop mixedApi 0 [1, 2, 3, 4]).map
            (fun kh => expectedFields mixedDesktop kh.2) ∧
        ∀ window ∈ st.windows, cstr window.title ≠ [] :=
  ⟨⟨by decide, by decide⟩,
    walkWindows_records_qualifying mixedDesktop mixedApi zeroTime [1, 2, 3, 4] (by decide)⟩

/-! ## Handles -/

/-- The reporter loop of qsysinfo.c ends with no process handle open. -/
theorem reportPhase_openHandles (api : ProcessApi) (mem : Memory) (processArray : List Nat)
    (queries : Nat) : (reportPhase api mem processArray queries).openHandles = [] := by
  simp [reportPhase, reporterLoop_openHandles]

/-- C9 (the code departs from the claim): when the window walk of vwin.c ends, one
process handle is still open for every window it has recorded. The handle is
closed on the path where GetProcessTimes fails only; on the path that records the
window it is never closed, so the number of open handles is not 0 at the start of
the next round or at exit. -/
theorem walkWindows_leaves_handles_open (w : WindowApi) (api : ProcessApi)
    (garbage : SYSTEMTIME) (chain : List Nat) (st : WindowWalkState)
    (hwalk : walkWindows w api garbage 0 chain ⟨[], []⟩ = some st) :
    st.openHandles.length = st.windows.length := by
  have hspec := walkWindows_spec w api garbage chain 0 ⟨[], []⟩ (by simp)
  by_cases hcap : (qualifyingWindows w api 0 chain).length ≤ windowsCapacity
  · obtain ⟨st1, hwalk1, hfields, hhandles⟩ := hspec.1 (by simpa using hcap)
    rw [hwalk] at hwalk1
    cases hwalk1
    have hlen := congrArg List.length hfields
    simp only [List.length_map, List.map_nil, List.nil_append] at hlen
    simp only [List.length_nil, Nat.zero_add] at hhandles
    rw [hhandles, hlen]
  · have hnone := hspec.2 (by simp only [List.length_nil, Nat.zero_add]; omega)
    rw [hwalk] at hnone
    cases hnone

/-- One visible titled window whose process can be opened and queried: the walk
records it and ends with the handle 1 of its process open, and main returns with
this handle open. -/
theorem walkWindows_leaves_handles_open_witness :
    walkWindows crowdedDesktop openApi zeroTime 0 [1] ⟨[], []⟩ =
        some ⟨[recordedWindow crowdedDesktop 1 1 zeroTime], [1]⟩ ∧
      (vwinMain crowdedDesktop openApi zeroTime qsortStable [1]).map
        (fun r => (r.exitCode, r.openHandles)) = some (0, [1]) ∧
      ([1] : List Nat).length = [recordedWindow crowdedDesktop 1 1 zeroTime].length :=
  ⟨rfl, by decide,
    walkWindows_leaves_handles_open crowdedDesktop openApi zeroTime [1]
      ⟨[recordedWindow crowdedDesktop 1 1 zeroTime], [1]⟩ rfl⟩

end OpenAdapt
